import Mathlib

/-!
Verification of the hot-reloading dynamic library loader (`live_lib`,
`src/lib.rs`) against its natural-language specification.

The embedding is a shallow one: file paths are lists of components, the
filesystem is the list of existing paths, and the external collaborators
(filesystem permissions, the OS dynamic loader, the partner callbacks, the
watcher) are outcome oracles collected in `Cfg`.  Each Rust function is
translated into a Lean function over this state; drop glue is translated
into explicit functions producing the event trace and the stderr lines the
destructors emit.
-/

namespace LiveLib

/-- File paths, as lists of path components. -/
abbrev FPath := List String

/-- std::env::consts::DLL_PREFIX, instantiated for the Linux family. -/
def dllPre : String := "lib"

/-- std::env::consts::DLL_SUFFIX, instantiated for the Linux family. -/
def dllSuf : String := ".so"

/-- libloading::library_filename: the platform-decorated file name. -/
def library_filename (lib_name : String) : String := dllPre ++ lib_name ++ dllSuf

/-- The live-file name with disambiguator `i` built by `utils::get_load_path`
(`DLL_PREFIX + lib_name + "_live" + i + DLL_SUFFIX`). -/
def liveName (lib_name : String) (i : Nat) : String :=
  dllPre ++ lib_name ++ "_live" ++ toString i ++ dllSuf

/-- utils::get_load_path: try candidates `dir/<liveName lib_name i>` for
`i = 0, 1, 2, …` and return the first candidate whose file does not exist;
a candidate that exists is skipped (the loop only advances `i`).  The source
loop is unbounded, so the model takes `fuel`; `none` means the bound was
reached (the callers' theorems always supply sufficient fuel). -/
def get_load_path (fuel : Nat) (files : List FPath) (dir : FPath)
    (lib_name : String) : Option FPath :=
  go fuel 0
where
  go : Nat → Nat → Option FPath
    | 0, _ => none
    | f + 1, i =>
      let cand := dir ++ [liveName lib_name i]
      if cand ∈ files then go f (i + 1) else some cand

/-- utils::extract_lib_name: match `^DLL_PREFIX(.+)DLL_SUFFIX$` against the
file name and return the middle group (which must be non-empty). -/
def extract_lib_name (file_name : String) : Option String :=
  let cs := file_name.data
  let pre := dllPre.data
  let suf := dllSuf.data
  if pre.isPrefixOf cs then
    let rest := cs.drop pre.length
    if suf.isSuffixOf rest ∧ suf.length < rest.length then
      some (String.mk (rest.take (rest.length - suf.length)))
    else none
  else none

/-- Outcome oracles for the external collaborators.  A path listed in a field
makes the corresponding external operation fail for that path.  `fuel`
bounds the unbounded disambiguator loop of the path planner. -/
structure Cfg where
  undeletable : List FPath
  copyRefused : List FPath
  osLoadRefused : List FPath
  constructRefused : List FPath
  unloadRefused : List FPath
  watchRefused : List FPath
  unwatchRefused : List FPath
  disconnected : Bool
  fuel : Nat
  deriving DecidableEq

/-- A `Cfg` in which every external operation succeeds. -/
def Cfg.benign : Cfg := ⟨[], [], [], [], [], [], [], false, 100⟩

/-- Observable calls into the external collaborators, for the temporal
claims: a successful OS load of a load path, a partner construct call (with
its outcome), a partner destruct call (with its outcome), an OS unload. -/
inductive Event
  | osLoadOk (p : FPath)
  | construct (p : FPath) (ok : Bool)
  | destruct (p : FPath) (ok : Bool)
  | osUnload (p : FPath)
  deriving DecidableEq

/-- notify::DebouncedEvent, as received from the watcher channel. -/
inductive DEvent
  | create (p : FPath)
  | write (p : FPath)
  | noticeWrite (p : FPath)
  | noticeRemove (p : FPath)
  | remove (p : FPath)
  | rename (p q : FPath)
  | chmod (p : FPath)
  | rescan
  | error
  deriving DecidableEq

/-- The error cases the loader can return (the error-chain messages are
identified by the step that produced them). -/
inductive Err
  | notFound
  | copyFailed
  | osLoadFailed
  | loadError
  | findLibName
  | findLib
  | watchFailed
  | unwatchFailed
  | disconnected
  | fileNameFailed
  | extractFailed
  | fuelOut
  deriving DecidableEq

/-- Result of a fallible loader operation. -/
inductive Res
  | ok
  | err (e : Err)
  deriving DecidableEq

/-- One loaded entry (struct Lib).  `lib` stands for the OS library handle,
identified by the load path it was mapped from; the partner type is the unit
partner, stored exactly as the source stores it: as an `Option`. -/
structure Lib where
  lib : FPath
  lib_name : String
  load_path : FPath
  origin_path : FPath
  partner : Option Unit
  deriving DecidableEq

/-- struct Loader: the two maps (as association lists with unique keys), the
search directories and the pending-delete queue.  The watcher and the
receiver carry no loader-visible state beyond `Cfg`/the drained events. -/
structure Loader where
  lib_name_to_lib : List (String × Lib)
  origin_path_to_lib_name : List (FPath × String)
  search_dirs : List FPath
  pending_remove : List FPath
  deriving DecidableEq

/-- Loader::new: empty maps and queue (the executable-directory logic only
determines `search_dirs`, which the model takes as given). -/
def newLoader (search_dirs : List FPath) : Loader := ⟨[], [], search_dirs, []⟩

/-- HashMap lookup on the association-list model. -/
def lookupKV {α β : Type} [DecidableEq α] (k : α) : List (α × β) → Option β
  | [] => none
  | (k', v) :: rest => if k' = k then some v else lookupKV k rest

/-- HashMap::remove on the association-list model: the removed value (if
any) and the remaining map. -/
def removeKV {α β : Type} [DecidableEq α] (k : α) :
    List (α × β) → Option β × List (α × β)
  | [] => (none, [])
  | (k', v) :: rest =>
    if k' = k then (some v, rest)
    else
      let r := removeKV k rest
      (r.1, (k', v) :: r.2)

/-- HashMap::insert on the association-list model: the displaced value (if
any) and the new map. -/
def insertKV {α β : Type} [DecidableEq α] (k : α) (v : β) (m : List (α × β)) :
    Option β × List (α × β) :=
  let r := removeKV k m
  (r.1, (k, v) :: r.2)

/-- impl Drop for Lib, as (event trace, stderr lines).  In the source,
`self.partner.take().map(|p| p.unload(&self.lib))` has type
`Option<UnloadResult>`, so the `chain_err` applied to it is error_chain's
`chain_err` for `Option`: it yields `Err(UnloadError)` exactly when the
partner was absent, and otherwise wraps the unload result — whatever it was —
in `Ok`.  `.err()` is therefore `Some` only for an absent partner, so the
`eprintln!` runs only then, and a real unload error is discarded.  The OS
mapping is released when the `lib` field is dropped, after the body runs. -/
def Lib.dropGlue (cfg : Cfg) (l : Lib) : List Event × List String :=
  match l.partner with
  | some _ =>
    ([Event.destruct l.load_path (if l.load_path ∈ cfg.unloadRefused then false else true),
      Event.osUnload l.load_path], [])
  | none => ([Event.osUnload l.load_path], ["UnloadError"])

/-- std::fs::remove_file, as a success predicate over the file list: the file
must exist and be deletable. -/
def removeFileOk (cfg : Cfg) (files : List FPath) (p : FPath) : Bool :=
  decide (p ∈ files) && decide (p ∉ cfg.undeletable)

/-- Loader::copy (std::fs::copy): succeeds when the origin exists and the
destination is writable. -/
def copyOk (cfg : Cfg) (files : List FPath) (origin load : FPath) : Bool :=
  decide (origin ∈ files) && decide (load ∉ cfg.copyRefused)

/-- Result of one loader operation: the filesystem, the loader state, the
returned result, the external-call trace and the stderr lines. -/
structure Out where
  files : List FPath
  st : Loader
  res : Res
  events : List Event
  stderr : List String
  deriving DecidableEq

/-- The drop glue of the `Option<Lib>` a `HashMap::insert` returns: a
displaced old entry is dropped on the spot. -/
def displacedGlue (cfg : Cfg) : Option Lib → List Event × List String
  | some old => old.dropGlue cfg
  | none => ([], [])

/-- Loader::add (private): copy origin→load, OS-load the copy, construct the
partner, then publish in the origin map and in the name map.  On a construct
failure the temporary `Lib` (whose partner is still `None`) is dropped — its
drop glue runs — and the error is returned; no step deletes the copied load
file. -/
def addOp (cfg : Cfg) (files : List FPath) (st : Loader)
    (lib_name : String) (origin_path load_path : FPath) : Out :=
  if copyOk cfg files origin_path load_path then
    let files1 := if load_path ∈ files then files else load_path :: files
    if load_path ∈ cfg.osLoadRefused then
      ⟨files1, st, Res.err Err.osLoadFailed, [], []⟩
    else
      if load_path ∈ cfg.constructRefused then
        let l : Lib := ⟨load_path, lib_name, load_path, origin_path, none⟩
        let d := l.dropGlue cfg
        ⟨files1, st, Res.err Err.loadError,
          Event.osLoadOk load_path :: Event.construct load_path false :: d.1, d.2⟩
      else
        let l : Lib := ⟨load_path, lib_name, load_path, origin_path, some ()⟩
        let rO := insertKV origin_path lib_name st.origin_path_to_lib_name
        let rN := insertKV lib_name l st.lib_name_to_lib
        let displaced := displacedGlue cfg rN.1
        ⟨files1,
          { st with origin_path_to_lib_name := rO.2
                    lib_name_to_lib := rN.2 },
          Res.ok,
          Event.osLoadOk load_path :: Event.construct load_path true :: displaced.1,
          displaced.2⟩
  else ⟨files, st, Res.err Err.copyFailed, [], []⟩

/-- Loader::remove (private): take the name out of the origin map (an absent
key is an error and leaves the maps unchanged), take the entry out of the
name map, push its load path onto the pending-delete queue, then drop the
entry. -/
def removeOp (cfg : Cfg) (files : List FPath) (st : Loader)
    (origin_path : FPath) : Out :=
  let r := removeKV origin_path st.origin_path_to_lib_name
  match r.1 with
  | none => ⟨files, st, Res.err Err.findLibName, [], []⟩
  | some lib_name =>
    let st1 := { st with origin_path_to_lib_name := r.2 }
    let r2 := removeKV lib_name st1.lib_name_to_lib
    match r2.1 with
    | none => ⟨files, { st1 with lib_name_to_lib := r2.2 }, Res.err Err.findLib, [], []⟩
    | some lib =>
      let st2 := { st1 with lib_name_to_lib := r2.2
                            pending_remove := st1.pending_remove ++ [lib.load_path] }
      let d := lib.dropGlue cfg
      ⟨files, st2, Res.ok, d.1, d.2⟩

/-- Loader::search: find the first search directory containing the decorated
file name; the pair is the origin path and the planned load path. -/
def search (cfg : Cfg) (files : List FPath) (search_dirs : List FPath)
    (lib_name : String) : Option (FPath × Option FPath) :=
  match search_dirs with
  | [] => none
  | dir :: rest =>
    let origin_path := dir ++ [library_filename lib_name]
    if origin_path ∈ files then
      some (origin_path, get_load_path cfg.fuel files dir lib_name)
    else search cfg files rest lib_name

/-- Loader::add_library: no-op success when the name is already loaded;
otherwise search, add, then register the watch.  A watch failure is returned
after `add` has already published the entry. -/
def add_library (cfg : Cfg) (files : List FPath) (st : Loader)
    (lib_name : String) : Out :=
  if (lookupKV lib_name st.lib_name_to_lib).isSome then ⟨files, st, Res.ok, [], []⟩
  else
    match search cfg files st.search_dirs lib_name with
    | none => ⟨files, st, Res.err Err.notFound, [], []⟩
    | some (_, none) => ⟨files, st, Res.err Err.fuelOut, [], []⟩
    | some (origin_path, some load_path) =>
      let o := addOp cfg files st lib_name origin_path load_path
      match o.res with
      | Res.err e => ⟨o.files, o.st, Res.err e, o.events, o.stderr⟩
      | Res.ok =>
        if origin_path ∈ cfg.watchRefused then
          ⟨o.files, o.st, Res.err Err.watchFailed, o.events, o.stderr⟩
        else o

/-- Loader::remove_library: idempotent; unwatch (an unwatch failure returns
before any state change), then the private remove. -/
def remove_library (cfg : Cfg) (files : List FPath) (st : Loader)
    (lib_name : String) : Out :=
  match lookupKV lib_name st.lib_name_to_lib with
  | none => ⟨files, st, Res.ok, [], []⟩
  | some lib =>
    if lib.origin_path ∈ cfg.unwatchRefused then
      ⟨files, st, Res.err Err.unwatchFailed, [], []⟩
    else removeOp cfg files st lib.origin_path

/-- Loader::get.  The source unwraps the stored partner
(`lib.partner.as_ref().unwrap()`); the model returns the stored `Option`, so
the unwrap panics exactly when the second component is `none`. -/
def getOp (st : Loader) (lib_name : String) : Option (FPath × Option Unit) :=
  (lookupKV lib_name st.lib_name_to_lib).map fun l => (l.lib, l.partner)

/-- The pending-delete walk at the top of Loader::update: pop entries from
the front while deletion succeeds; stop at the first failure. -/
def drainPending (cfg : Cfg) : List FPath → List FPath → List FPath × List FPath
  | [], files => ([], files)
  | p :: rest, files =>
    if removeFileOk cfg files p then drainPending cfg rest (files.erase p)
    else (p :: rest, files)

/-- The body of the Create/Write arm of Loader::update: `self.remove(&path)?`
(so an unknown path is an error), extract the file name and the library name,
plan a load path in the path's directory, then the private add. -/
def handleChanged (cfg : Cfg) (files : List FPath) (st : Loader)
    (path : FPath) : Out :=
  let r := removeOp cfg files st path
  match r.res with
  | Res.err e => ⟨r.files, r.st, Res.err e, r.events, r.stderr⟩
  | Res.ok =>
    match path.getLast? with
    | none => ⟨r.files, r.st, Res.err Err.fileNameFailed, r.events, r.stderr⟩
    | some file_name =>
      match extract_lib_name file_name with
      | none => ⟨r.files, r.st, Res.err Err.extractFailed, r.events, r.stderr⟩
      | some lib_name =>
        let dir := path.dropLast
        match get_load_path cfg.fuel r.files dir lib_name with
        | none => ⟨r.files, r.st, Res.err Err.fuelOut, r.events, r.stderr⟩
        | some load_path =>
          let a := addOp cfg r.files r.st lib_name path load_path
          ⟨a.files, a.st, a.res, r.events ++ a.events, r.stderr ++ a.stderr⟩

/-- The try_recv loop of Loader::update over the drained events: Create and
Write are handled (the first error terminates the tick); the other event
kinds are ignored; when the queue is exhausted, Empty is success and
Disconnected is a fatal error. -/
def processEvents (cfg : Cfg) : List DEvent → List FPath → Loader → Out
  | [], files, st =>
    if cfg.disconnected then ⟨files, st, Res.err Err.disconnected, [], []⟩
    else ⟨files, st, Res.ok, [], []⟩
  | ev :: rest, files, st =>
    match ev with
    | DEvent.create p =>
      let h := handleChanged cfg files st p
      match h.res with
      | Res.err e => ⟨h.files, h.st, Res.err e, h.events, h.stderr⟩
      | Res.ok =>
        let o := processEvents cfg rest h.files h.st
        ⟨o.files, o.st, o.res, h.events ++ o.events, h.stderr ++ o.stderr⟩
    | DEvent.write p =>
      let h := handleChanged cfg files st p
      match h.res with
      | Res.err e => ⟨h.files, h.st, Res.err e, h.events, h.stderr⟩
      | Res.ok =>
        let o := processEvents cfg rest h.files h.st
        ⟨o.files, o.st, o.res, h.events ++ o.events, h.stderr ++ o.stderr⟩
    | DEvent.noticeWrite _ => processEvents cfg rest files st
    | DEvent.noticeRemove _ => processEvents cfg rest files st
    | DEvent.remove _ => processEvents cfg rest files st
    | DEvent.rename _ _ => processEvents cfg rest files st
    | DEvent.chmod _ => processEvents cfg rest files st
    | DEvent.rescan => processEvents cfg rest files st
    | DEvent.error => processEvents cfg rest files st

/-- Loader::update (the tick): drain the pending-delete queue, then process
the received events. -/
def update (cfg : Cfg) (events : List DEvent) (files : List FPath)
    (st : Loader) : Out :=
  let d := drainPending cfg st.pending_remove files
  processEvents cfg events d.2 { st with pending_remove := d.1 }

/-- Drop glue of Loader: the source has no `impl Drop for Loader`, so the
fields are dropped in declaration order.  Dropping the watcher, the
receiver, the maps' keys, the search list and the pending list has no
filesystem effect; each `Lib` value in `lib_name_to_lib` runs its own drop
glue.  No file is deleted anywhere in this glue. -/
def loaderDrop (cfg : Cfg) (files : List FPath) (st : Loader) :
    List FPath × List Event × List String :=
  let ds := st.lib_name_to_lib.map fun kv => (kv.2).dropGlue cfg
  (files, (ds.map Prod.fst).flatten, (ds.map Prod.snd).flatten)

/-- Recognizer for partner-construct call events. -/
def isConstructE : Event → Bool
  | Event.construct _ _ => true
  | _ => false

/-- Recognizer for successful OS-load events. -/
def isOsLoadOkE : Event → Bool
  | Event.osLoadOk _ => true
  | _ => false

/-- Recognizer for partner-destruct call events. -/
def isDestructE : Event → Bool
  | Event.destruct _ _ => true
  | _ => false

/-- Recognizer for OS-unload events. -/
def isOsUnloadE : Event → Bool
  | Event.osUnload _ => true
  | _ => false

/-- The load-path planner as §4.1 of the spec words it, for comparison with
`get_load_path`: a candidate that does not exist is returned; a candidate
that exists is deleted if possible, removed from the pending-delete queue
and returned; only when the deletion fails does the disambiguator advance.
The result carries the planner's filesystem and queue effects. -/
def get_load_path_spec (cfg : Cfg) (fuel : Nat) (files pending : List FPath)
    (dir : FPath) (lib_name : String) :
    Option (FPath × List FPath × List FPath) :=
  go fuel 0
where
  go : Nat → Nat → Option (FPath × List FPath × List FPath)
    | 0, _ => none
    | f + 1, i =>
      let cand := dir ++ [liveName lib_name i]
      if cand ∈ files then
        if cand ∉ cfg.undeletable then
          some (cand, files.erase cand, pending.erase cand)
        else go f (i + 1)
      else some (cand, files, pending)

/-- The invariant behind Loader::get's unwrap: every entry stored in the
name map holds a present partner. -/
abbrev PartnerInv (st : Loader) : Prop :=
  ∀ kv ∈ st.lib_name_to_lib, (Prod.snd kv).partner.isSome = true

/-- An empty loader with no search directories. -/
def ldr0 : Loader := newLoader []

/-- Concrete origin path used by the concrete scenarios. -/
def pOrigin : FPath := ["d", "libfoo.so"]

/-- Concrete load path with disambiguator 0. -/
def pLive0 : FPath := ["d", "libfoo_live0.so"]

/-- Concrete load path with disambiguator 1. -/
def pLive1 : FPath := ["d", "libfoo_live1.so"]

/-- A `Cfg` in which registering a watch on the concrete origin fails. -/
def cfgC1 : Cfg := { Cfg.benign with watchRefused := [pOrigin] }

/-- Filesystem holding only the concrete origin file. -/
def fsOrigin : List FPath := [pOrigin]

/-- A fresh loader whose single search directory is `d`. -/
def ldrD : Loader := newLoader [["d"]]

/-- A loader with one orphan entry in the pending-delete queue. -/
def stC3 : Loader := ⟨[], [], [], [pLive0]⟩

/-- Filesystem holding only the orphan live file. -/
def fsLive0 : List FPath := [pLive0]

/-- A `Cfg` in which the partner's unload fails for the concrete load path. -/
def cfgC5 : Cfg := { Cfg.benign with unloadRefused := [pLive0] }

/-- A loaded entry mapped from the concrete load path, partner present. -/
def libC5 : Lib := ⟨pLive0, "foo", pLive0, pOrigin, some ()⟩

/-- The same entry with its partner absent (as after a construct failure). -/
def libC5none : Lib := ⟨pLive0, "foo", pLive0, pOrigin, none⟩

/-- A `Cfg` in which the partner's construct fails for the concrete load
path. -/
def cfgC6 : Cfg := { Cfg.benign with constructRefused := [pLive0] }

/-- A loader holding one correctly published entry for `foo`. -/
def stC10 : Loader := ⟨[("foo", libC5)], [(pOrigin, "foo")], [["d"]], []⟩

/-- The result of adding `foo` when watch registration fails. -/
def outC1 : Out := add_library cfgC1 fsOrigin ldrD "foo"

/-- The result of the private add when the partner's construct fails. -/
def outC6 : Out := addOp cfgC6 fsOrigin ldrD "foo" pOrigin pLive0

/- ------------------------------------------------------------------ -/
/- Helper lemmas.                                                      -/
/- ------------------------------------------------------------------ -/

theorem removeKV_fst {α β : Type} [DecidableEq α] (k : α) (m : List (α × β)) :
    (removeKV k m).1 = lookupKV k m := by
  induction m with
  | nil => rfl
  | cons kv rest ih =>
    obtain ⟨k', v⟩ := kv
    by_cases h : k' = k <;> simp [removeKV, lookupKV, h, ih]

theorem mem_of_mem_removeKV {α β : Type} [DecidableEq α] {k : α}
    {m : List (α × β)} {x : α × β} (hx : x ∈ (removeKV k m).2) : x ∈ m := by
  induction m with
  | nil => simp [removeKV] at hx
  | cons kv rest ih =>
    obtain ⟨k', v⟩ := kv
    by_cases h : k' = k
    · simp only [removeKV, if_pos h] at hx
      exact List.mem_cons_of_mem _ hx
    · simp [removeKV, h] at hx
      rcases hx with h1 | h1
      · exact h1 ▸ List.mem_cons_self _ _
      · exact List.mem_cons_of_mem _ (ih h1)

theorem dropGlue_counts (cfg : Cfg) (l : Lib) :
    (l.dropGlue cfg).1.countP isConstructE = 0 ∧
    (l.dropGlue cfg).1.countP isOsLoadOkE = 0 ∧
    (l.dropGlue cfg).1.countP isDestructE = (if l.partner.isSome then 1 else 0) ∧
    (l.dropGlue cfg).1.countP isOsUnloadE = 1 ∧
    (l.dropGlue cfg).1.getLast? = some (Event.osUnload l.load_path) := by
  cases hp : l.partner <;>
    simp [Lib.dropGlue, hp, List.countP_cons, isConstructE, isOsLoadOkE,
      isDestructE, isOsUnloadE]

theorem displacedGlue_counts (cfg : Cfg) (x : Option Lib) :
    (displacedGlue cfg x).1.countP isConstructE = 0 ∧
    (displacedGlue cfg x).1.countP isOsLoadOkE = 0 := by
  cases x with
  | none => simp [displacedGlue]
  | some old =>
    have h := dropGlue_counts cfg old
    exact ⟨h.1, h.2.1⟩

theorem drainPending_spec (cfg : Cfg) :
    ∀ (pending files : List FPath),
      ∃ k, (drainPending cfg pending files).1 = pending.drop k ∧
        (drainPending cfg pending files).2 =
          (pending.take k).foldl (fun fs p => fs.erase p) files ∧
        ((drainPending cfg pending files).1 = [] ∨
          removeFileOk cfg (drainPending cfg pending files).2
            ((drainPending cfg pending files).1.headI) = false) := by
  intro pending
  induction pending with
  | nil => intro files; exact ⟨0, rfl, rfl, Or.inl rfl⟩
  | cons p rest ih =>
    intro files
    cases hok : removeFileOk cfg files p
    · have hd : drainPending cfg (p :: rest) files = (p :: rest, files) := by
        simp [drainPending, hok]
      exact ⟨0, by simp [hd], by simp [hd], Or.inr (by simp [hd, hok])⟩
    · have hd : drainPending cfg (p :: rest) files =
          drainPending cfg rest (files.erase p) := by
        simp [drainPending, hok]
      obtain ⟨k, h1, h2, h3⟩ := ih (files.erase p)
      refine ⟨k + 1, ?_, ?_, ?_⟩
      · rw [hd, h1, List.drop_succ_cons]
      · rw [hd, h2, List.take_succ_cons, List.foldl_cons]
      · rw [hd]; exact h3

theorem get_load_path_go_spec (files : List FPath) (dir : FPath)
    (lib_name : String) :
    ∀ (f i j : Nat), i ≤ j → j - i < f →
      (∀ k, i ≤ k → k < j → dir ++ [liveName lib_name k] ∈ files) →
      dir ++ [liveName lib_name j] ∉ files →
      get_load_path.go files dir lib_name f i =
        some (dir ++ [liveName lib_name j]) := by
  intro f
  induction f with
  | zero => intro i j h1 h2 h3 h4; exact absurd h2 (Nat.not_lt_zero _)
  | succ f ih =>
    intro i j h1 h2 h3 h4
    by_cases hij : i = j
    · subst hij
      simp [get_load_path.go, h4]
    · have hlt : i < j := lt_of_le_of_ne h1 hij
      have hmem : dir ++ [liveName lib_name i] ∈ files := h3 i le_rfl hlt
      simp only [get_load_path.go, if_pos hmem]
      exact ih (i + 1) j hlt (by omega) (fun k hk1 hk2 => h3 k (by omega) hk2) h4

/- ------------------------------------------------------------------ -/
/- C3: shutdown behaviour of the Loader.                               -/
/- ------------------------------------------------------------------ -/

/-- C3 (counterexample): the claim says that after the Loader's drop every
pending-delete entry has been deleted.  At a state with one pending entry
whose file exists, the entry's file still exists after the drop: nothing in
the drop glue deletes files. -/
theorem claim_C3_counterexample :
    ¬ (∀ p ∈ stC3.pending_remove, p ∉ (loaderDrop Cfg.benign fsLive0 stC3).1) := by
  decide

/-- C3 (amended): dropping the Loader runs each entry's drop glue (partner
handling, then OS unload) but deletes no file: the filesystem is unchanged,
the pending-delete queue is simply discarded, and there is no blocking
drain or sleep. -/
theorem claim_C3_amended : ∀ (cfg : Cfg) (files : List FPath) (st : Loader),
    (loaderDrop cfg files st).1 = files ∧
    (loaderDrop cfg files st).2.1 =
      (st.lib_name_to_lib.map fun kv => ((Prod.snd kv).dropGlue cfg).1).flatten ∧
    (loaderDrop cfg files st).2.2 =
      (st.lib_name_to_lib.map fun kv => ((Prod.snd kv).dropGlue cfg).2).flatten := by
  intro cfg files st
  refine ⟨rfl, ?_, ?_⟩ <;> simp [loaderDrop, List.map_map, Function.comp_def]

/- ------------------------------------------------------------------ -/
/- C4: the load-path planner.                                          -/
/- ------------------------------------------------------------------ -/

/-- C4 (counterexample): with `libfoo_live0.so` existing, deletable and in
the pending queue, the claim's planner (spec steps 1–3) deletes it, removes
it from the queue and returns it; the code's planner returns the
`_live1` candidate instead and has no filesystem or queue effect at all. -/
theorem claim_C4_counterexample :
    get_load_path 3 fsLive0 ["d"] "foo" = some pLive1 ∧
    get_load_path_spec Cfg.benign 3 fsLive0 fsLive0 ["d"] "foo" =
      some (pLive0, [], []) ∧
    pLive1 ≠ pLive0 := by
  decide

/-- C4 (amended): the planner tries disambiguators j = 0, 1, 2, … and
returns the first candidate that does not exist; an existing candidate is
skipped with no deletion attempt and no pending-queue change (the planner
has no access to either). -/
theorem claim_C4_amended : ∀ (files : List FPath) (dir : FPath)
    (lib_name : String) (j fuel : Nat), j < fuel →
    (∀ k, k < j → dir ++ [liveName lib_name k] ∈ files) →
    dir ++ [liveName lib_name j] ∉ files →
    get_load_path fuel files dir lib_name = some (dir ++ [liveName lib_name j]) := by
  intro files dir lib_name j fuel h1 h2 h3
  exact get_load_path_go_spec files dir lib_name fuel 0 j (Nat.zero_le _)
    (by omega) (fun k _ hk => h2 k hk) h3

/-- C4 (witness): with `_live0` existing and `_live1` free, the planner
returns the `_live1` candidate. -/
theorem claim_C4_witness :
    get_load_path 3 fsLive0 ["d"] "foo" = some (["d"] ++ [liveName "foo" 1]) :=
  claim_C4_amended fsLive0 ["d"] "foo" 1 3 (by omega)
    (fun k hk => by
      have hk0 : k = 0 := by omega
      subst hk0
      decide)
    (by decide)

/- ------------------------------------------------------------------ -/
/- C5: unload errors on drop.                                          -/
/- ------------------------------------------------------------------ -/

/-- C5 (code bug): when an entry whose partner is present is dropped and the
partner's unload fails, the code writes nothing to stderr — the `chain_err`
in `Lib::drop` is applied to the `Option` returned by `take().map(...)`, so
the unload result is discarded and the error is lost; the `eprintln!` fires
only in the partner-absent case, where no unload was even attempted.  The
unload error still never blocks the OS release (the unload is last). -/
theorem claim_C5_code_bug :
    (libC5.dropGlue cfgC5).2 = [] ∧
    Event.destruct pLive0 false ∈ (libC5.dropGlue cfgC5).1 ∧
    (libC5.dropGlue cfgC5).1.getLast? = some (Event.osUnload pLive0) ∧
    (libC5none.dropGlue cfgC5).2 = ["UnloadError"] ∧
    (libC5none.dropGlue cfgC5).1.countP isDestructE = 0 := by
  decide

/- ------------------------------------------------------------------ -/
/- C2 and C8: event handling in the tick.                              -/
/- ------------------------------------------------------------------ -/

theorem removeOp_notFound (cfg : Cfg) (files : List FPath) (st : Loader)
    (p : FPath) (h : lookupKV p st.origin_path_to_lib_name = none) :
    removeOp cfg files st p = ⟨files, st, Res.err Err.findLibName, [], []⟩ := by
  have h1 : (removeKV p st.origin_path_to_lib_name).1 = none := by
    rw [removeKV_fst]; exact h
  unfold removeOp
  simp [h1]

theorem handleChanged_notFound (cfg : Cfg) (files : List FPath) (st : Loader)
    (p : FPath) (h : lookupKV p st.origin_path_to_lib_name = none) :
    handleChanged cfg files st p = ⟨files, st, Res.err Err.findLibName, [], []⟩ := by
  unfold handleChanged
  rw [removeOp_notFound cfg files st p h]

/-- C2 (counterexample): a Changed event (here a Write) for a path that is
not a known OriginPath does not make update return success — the tick
returns the `Failed to find lib_name` error instead of dropping the event
silently. -/
theorem claim_C2_counterexample :
    ¬ ((update Cfg.benign [DEvent.write pOrigin] [] ldr0).res = Res.ok) := by
  decide

/-- C2 (amended): for a Changed event (Create or Write) whose path is not a
known OriginPath, update returns the `Failed to find lib_name` error and
stops processing the queue; the maps, the loaded entries, the pending
queue and the filesystem are unchanged (stated from a tick with an empty
pending queue so the pending walk has no effect of its own). -/
theorem claim_C2_amended : ∀ (cfg : Cfg) (files : List FPath) (st : Loader)
    (p : FPath) (rest : List DEvent),
    st.pending_remove = [] →
    lookupKV p st.origin_path_to_lib_name = none →
    update cfg (DEvent.write p :: rest) files st =
      ⟨files, st, Res.err Err.findLibName, [], []⟩ ∧
    update cfg (DEvent.create p :: rest) files st =
      ⟨files, st, Res.err Err.findLibName, [], []⟩ := by
  intro cfg files st p rest h1 h2
  have hst : { st with pending_remove := ([] : List FPath) } = st := by
    cases st
    simp_all
  have hdrain : drainPending cfg st.pending_remove files = ([], files) := by
    rw [h1]; rfl
  refine ⟨?_, ?_⟩ <;>
  · simp only [update, hdrain]
    rw [hst]
    simp only [processEvents]
    rw [handleChanged_notFound cfg files st p h2]

/-- C2 (witness): concrete instance of the amended statement. -/
theorem claim_C2_witness :
    update Cfg.benign [DEvent.write pOrigin] [] ldr0 =
      ⟨[], ldr0, Res.err Err.findLibName, [], []⟩ :=
  (claim_C2_amended Cfg.benign [] ldr0 pOrigin [] (by decide) (by decide)).1

/-- C8: the watch-event mapping of the tick — NoticeWrite, NoticeRemove,
Remove, Rename, Chmod, Rescan and transient watcher errors are ignored
with no state change (processing is exactly that of the remaining queue),
Create and Write receive identical reload handling, and a Create is
genuinely processed rather than ignored: on an unknown path it produces
the lookup error. -/
theorem claim_C8 : ∀ (cfg : Cfg) (rest : List DEvent) (files : List FPath)
    (st : Loader) (p q : FPath),
    processEvents cfg (DEvent.noticeWrite p :: rest) files st =
      processEvents cfg rest files st ∧
    processEvents cfg (DEvent.noticeRemove p :: rest) files st =
      processEvents cfg rest files st ∧
    processEvents cfg (DEvent.remove p :: rest) files st =
      processEvents cfg rest files st ∧
    processEvents cfg (DEvent.rename p q :: rest) files st =
      processEvents cfg rest files st ∧
    processEvents cfg (DEvent.chmod p :: rest) files st =
      processEvents cfg rest files st ∧
    processEvents cfg (DEvent.rescan :: rest) files st =
      processEvents cfg rest files st ∧
    processEvents cfg (DEvent.error :: rest) files st =
      processEvents cfg rest files st ∧
    processEvents cfg (DEvent.create p :: rest) files st =
      processEvents cfg (DEvent.write p :: rest) files st ∧
    (lookupKV p st.origin_path_to_lib_name = none →
      (processEvents cfg (DEvent.create p :: rest) files st).res =
        Res.err Err.findLibName) := by
  intro cfg rest files st p q
  refine ⟨rfl, rfl, rfl, rfl, rfl, rfl, rfl, rfl, ?_⟩
  intro h
  simp only [processEvents]
  rw [handleChanged_notFound cfg files st p h]

/-- C8 (witness): concrete instance of the Create-is-processed conjunct. -/
theorem claim_C8_witness :
    (processEvents Cfg.benign [DEvent.create pOrigin] [] ldr0).res =
      Res.err Err.findLibName :=
  (claim_C8 Cfg.benign [] [] ldr0 pOrigin pOrigin).2.2.2.2.2.2.2.2 (by decide)

/- ------------------------------------------------------------------ -/
/- C9: pending deletes before events, walked in order.                 -/
/- ------------------------------------------------------------------ -/

/-- C9: in every tick the pending-delete walk runs before any event is
processed (update is exactly that composition); the queue is walked from
the front — the remaining queue is the suffix `drop k` of the original,
and the first k entries were erased from the filesystem in order — and the
walk stops at the first entry whose deletion fails, which stays at the
head of the remaining queue. -/
theorem claim_C9 : ∀ (cfg : Cfg) (evs : List DEvent) (files : List FPath)
    (st : Loader),
    update cfg evs files st =
      processEvents cfg evs (drainPending cfg st.pending_remove files).2
        { st with pending_remove := (drainPending cfg st.pending_remove files).1 } ∧
    ∃ k, (drainPending cfg st.pending_remove files).1 = st.pending_remove.drop k ∧
      (drainPending cfg st.pending_remove files).2 =
        (st.pending_remove.take k).foldl (fun fs p => fs.erase p) files ∧
      ((drainPending cfg st.pending_remove files).1 = [] ∨
        removeFileOk cfg (drainPending cfg st.pending_remove files).2
          ((drainPending cfg st.pending_remove files).1.headI) = false) := by
  intro cfg evs files st
  exact ⟨rfl, drainPending_spec cfg st.pending_remove files⟩

/- ------------------------------------------------------------------ -/
/- C1 and C6: transactionality of add.                                 -/
/- ------------------------------------------------------------------ -/

theorem addOp_err_st (cfg : Cfg) (files : List FPath) (st : Loader)
    (n : String) (o l : FPath) (e : Err)
    (h : (addOp cfg files st n o l).res = Res.err e) :
    (addOp cfg files st n o l).st = st := by
  by_cases h1 : copyOk cfg files o l = true
  · by_cases h2 : l ∈ cfg.osLoadRefused
    · simp [addOp, h1, h2]
    · by_cases h3 : l ∈ cfg.constructRefused
      · simp [addOp, h1, h2, h3]
      · simp [addOp, h1, h2, h3] at h
  · simp [addOp, h1]

theorem addOp_err_cases (cfg : Cfg) (files : List FPath) (st : Loader)
    (n : String) (o l : FPath) (e : Err)
    (h : (addOp cfg files st n o l).res = Res.err e) :
    e = Err.copyFailed ∨ e = Err.osLoadFailed ∨ e = Err.loadError := by
  by_cases h1 : copyOk cfg files o l = true
  · by_cases h2 : l ∈ cfg.osLoadRefused
    · simp [addOp, h1, h2] at h
      simp_all
    · by_cases h3 : l ∈ cfg.constructRefused
      · simp [addOp, h1, h2, h3] at h
        simp_all
      · simp [addOp, h1, h2, h3] at h
  · simp [addOp, h1] at h
    simp_all

theorem addOp_ok_lookup (cfg : Cfg) (files : List FPath) (st : Loader)
    (n : String) (o l : FPath)
    (h : (addOp cfg files st n o l).res = Res.ok) :
    lookupKV n (addOp cfg files st n o l).st.lib_name_to_lib =
      some ⟨l, n, l, o, some ()⟩ := by
  by_cases h1 : copyOk cfg files o l = true
  · by_cases h2 : l ∈ cfg.osLoadRefused
    · simp [addOp, h1, h2] at h
    · by_cases h3 : l ∈ cfg.constructRefused
      · simp [addOp, h1, h2, h3] at h
      · simp [addOp, h1, h2, h3, insertKV, lookupKV]
  · simp [addOp, h1] at h

/-- C1 (counterexample): with `libfoo.so` present and the watch registration
failing, add_library returns an error yet `foo` is present in the name map
and the origin map afterwards — the failed add was not rolled back, against
the claim that on any failure the name is absent from both maps. -/
theorem claim_C1_counterexample :
    ¬ (outC1.res = Res.ok ∨
       lookupKV "foo" outC1.st.lib_name_to_lib = none ∨
       lookupKV pOrigin outC1.st.origin_path_to_lib_name = none) := by
  decide

/-- C1 (amended): add is transactional for failures up to and including
partner construction — on every error other than the watch-registration
error the loader state is unchanged — but a load file created by the copy
step is not deleted when the OS load or the partner construct fails, and a
watch-registration failure returns an error with the new entry already
published in both maps. -/
theorem claim_C1_amended :
    (∀ (cfg : Cfg) (files : List FPath) (st : Loader) (n : String) (e : Err),
      (add_library cfg files st n).res = Res.err e → e ≠ Err.watchFailed →
      (add_library cfg files st n).st = st) ∧
    (∀ (cfg : Cfg) (files : List FPath) (st : Loader) (n : String) (o l : FPath),
      ((addOp cfg files st n o l).res = Res.err Err.osLoadFailed ∨
        (addOp cfg files st n o l).res = Res.err Err.loadError) →
      l ∈ (addOp cfg files st n o l).files ∧ (addOp cfg files st n o l).st = st) ∧
    (∀ (cfg : Cfg) (files : List FPath) (st : Loader) (n : String),
      (add_library cfg files st n).res = Res.err Err.watchFailed →
      (lookupKV n (add_library cfg files st n).st.lib_name_to_lib).isSome = true) := by
  refine ⟨?_, ?_, ?_⟩
  · intro cfg files st n e h hne
    by_cases hl : (lookupKV n st.lib_name_to_lib).isSome = true
    · simp [add_library, hl] at h
    · rcases hs : search cfg files st.search_dirs n with _ | ⟨o, olp⟩
      · simp [add_library, hl, hs]
      · rcases olp with _ | lp
        · simp [add_library, hl, hs]
        · rcases ha : (addOp cfg files st n o lp).res with _ | e'
          · by_cases hw : o ∈ cfg.watchRefused
            · simp [add_library, hl, hs, ha, hw] at h
              simp_all
            · simp [add_library, hl, hs, ha, hw] at h
          · simp [add_library, hl, hs, ha]
            exact addOp_err_st cfg files st n o lp e' ha
  · intro cfg files st n o l h
    have hos : ∀ e, (addOp cfg files st n o l).res = Res.err e →
        e = Err.osLoadFailed ∨ e = Err.loadError →
        l ∈ (addOp cfg files st n o l).files ∧ (addOp cfg files st n o l).st = st := by
      intro e he hcase
      by_cases h1 : copyOk cfg files o l = true
      · by_cases h2 : l ∈ cfg.osLoadRefused
        · constructor
          · by_cases hm : l ∈ files <;> simp [addOp, h1, h2, hm]
          · simp [addOp, h1, h2]
        · by_cases h3 : l ∈ cfg.constructRefused
          · constructor
            · by_cases hm : l ∈ files <;> simp [addOp, h1, h2, h3, hm]
            · simp [addOp, h1, h2, h3]
          · simp [addOp, h1, h2, h3] at he
      · simp [addOp, h1] at he
        cases he
        simp at hcase
    rcases h with h | h
    · exact hos Err.osLoadFailed h (Or.inl rfl)
    · exact hos Err.loadError h (Or.inr rfl)
  · intro cfg files st n h
    by_cases hl : (lookupKV n st.lib_name_to_lib).isSome = true
    · simp [add_library, hl] at h
    · rcases hs : search cfg files st.search_dirs n with _ | ⟨o, olp⟩
      · simp [add_library, hl, hs] at h
      · rcases olp with _ | lp
        · simp [add_library, hl, hs] at h
        · rcases ha : (addOp cfg files st n o lp).res with _ | e'
          · by_cases hw : o ∈ cfg.watchRefused
            · simp only [add_library]
              simp [hl, hs, ha, hw, addOp_ok_lookup cfg files st n o lp ha]
            · simp [add_library, hl, hs, ha, hw] at h
          · have hcases := addOp_err_cases cfg files st n o lp e' ha
            simp [add_library, hl, hs, ha] at h
            simp_all

/-- C1 (witness): the watch-failure conjunct at the concrete scenario. -/
theorem claim_C1_witness :
    (lookupKV "foo" (add_library cfgC1 fsOrigin ldrD "foo").st.lib_name_to_lib).isSome = true :=
  claim_C1_amended.2.2 cfgC1 fsOrigin ldrD "foo" (by decide)

/-- C6 (counterexample): at the construct-failure input, the LoadError is
returned while the copied load file still exists — against the claim that
the load file is deleted before the error is returned. -/
theorem claim_C6_counterexample :
    ¬ (outC6.res = Res.err Err.loadError → pLive0 ∉ outC6.files) := by
  decide

/-- C6 (amended): when the OS load succeeds and the partner's construct
fails, add returns the LoadError, and the OS library is unloaded before the
error is returned (the construct call is followed by the OS unload in the
trace, and a spurious UnloadError is logged because the dropped temporary
entry has no partner yet); the load file created by the copy is NOT
deleted, and the maps are unchanged. -/
theorem claim_C6_amended : ∀ (cfg : Cfg) (files : List FPath) (st : Loader)
    (n : String) (o l : FPath),
    o ∈ files → l ∉ cfg.copyRefused → l ∉ cfg.osLoadRefused →
    l ∈ cfg.constructRefused →
    (addOp cfg files st n o l).res = Res.err Err.loadError ∧
    l ∈ (addOp cfg files st n o l).files ∧
    (addOp cfg files st n o l).events =
      [Event.osLoadOk l, Event.construct l false, Event.osUnload l] ∧
    (addOp cfg files st n o l).stderr = ["UnloadError"] ∧
    (addOp cfg files st n o l).st = st := by
  intro cfg files st n o l h1 h2 h3 h4
  have hc : copyOk cfg files o l = true := by simp [copyOk, h1, h2]
  refine ⟨?_, ?_, ?_, ?_, ?_⟩
  · simp [addOp, hc, h3, h4]
  · by_cases hm : l ∈ files <;> simp [addOp, hc, h3, h4, hm]
  · simp [addOp, hc, h3, h4, Lib.dropGlue]
  · simp [addOp, hc, h3, h4, Lib.dropGlue]
  · simp [addOp, hc, h3, h4]

/-- C6 (witness): concrete instance of the amended statement. -/
theorem claim_C6_witness :
    outC6.res = Res.err Err.loadError ∧ pLive0 ∈ outC6.files :=
  ⟨(claim_C6_amended cfgC6 fsOrigin ldrD "foo" pOrigin pLive0
      (by decide) (by decide) (by decide) (by decide)).1,
   (claim_C6_amended cfgC6 fsOrigin ldrD "foo" pOrigin pLive0
      (by decide) (by decide) (by decide) (by decide)).2.1⟩

/- ------------------------------------------------------------------ -/
/- C7: construct / destruct pairing and ordering.                      -/
/- ------------------------------------------------------------------ -/

theorem addOp_counts (cfg : Cfg) (files : List FPath) (st : Loader)
    (n : String) (o l : FPath) :
    (addOp cfg files st n o l).events.countP isConstructE =
      (addOp cfg files st n o l).events.countP isOsLoadOkE ∧
    (addOp cfg files st n o l).events.countP isOsLoadOkE ≤ 1 := by
  by_cases h1 : copyOk cfg files o l = true
  · by_cases h2 : l ∈ cfg.osLoadRefused
    · simp [addOp, h1, h2]
    · by_cases h3 : l ∈ cfg.constructRefused
      · simp [addOp, h1, h2, h3, Lib.dropGlue, List.countP_cons,
          isConstructE, isOsLoadOkE]
      · have hd := displacedGlue_counts cfg
          (insertKV n (⟨l, n, l, o, some ()⟩ : Lib) st.lib_name_to_lib).1
        simp [addOp, h1, h2, h3, List.countP_cons, isConstructE, isOsLoadOkE,
          hd.1, hd.2]
  · simp [addOp, h1]

theorem removeOp_counts (cfg : Cfg) (files : List FPath) (st : Loader)
    (p : FPath) :
    (removeOp cfg files st p).events.countP isConstructE = 0 ∧
    (removeOp cfg files st p).events.countP isOsLoadOkE = 0 := by
  unfold removeOp
  rcases h1 : (removeKV p st.origin_path_to_lib_name).1 with _ | n
  · simp [h1]
  · rcases h2 : (removeKV n st.lib_name_to_lib).1 with _ | lib
    · simp [h1, h2]
    · have hc := dropGlue_counts cfg lib
      simp [h1, h2, hc.1, hc.2.1]

theorem handleChanged_counts (cfg : Cfg) (files : List FPath) (st : Loader)
    (p : FPath) :
    (handleChanged cfg files st p).events.countP isConstructE =
      (handleChanged cfg files st p).events.countP isOsLoadOkE := by
  have hr := removeOp_counts cfg files st p
  rcases h1 : (removeOp cfg files st p).res with _ | e
  · rcases h2 : p.getLast? with _ | fn
    · simp [handleChanged, h1, h2, hr.1, hr.2]
    · rcases h3 : extract_lib_name fn with _ | ln
      · simp [handleChanged, h1, h2, h3, hr.1, hr.2]
      · rcases h4 : get_load_path cfg.fuel (removeOp cfg files st p).files
            p.dropLast ln with _ | lp
        · simp [handleChanged, h1, h2, h3, h4, hr.1, hr.2]
        · have ha := addOp_counts cfg (removeOp cfg files st p).files
            (removeOp cfg files st p).st ln p lp
          simp [handleChanged, h1, h2, h3, h4, List.countP_append,
            hr.1, hr.2, ha.1]
  · simp [handleChanged, h1, hr.1, hr.2]

theorem processEvents_counts (cfg : Cfg) :
    ∀ (evs : List DEvent) (files : List FPath) (st : Loader),
      (processEvents cfg evs files st).events.countP isConstructE =
        (processEvents cfg evs files st).events.countP isOsLoadOkE := by
  intro evs
  induction evs with
  | nil =>
    intro files st
    by_cases hd : cfg.disconnected = true <;> simp [processEvents, hd]
  | cons ev rest ih =>
    intro files st
    cases ev with
    | create p =>
      have hh := handleChanged_counts cfg files st p
      rcases h1 : (handleChanged cfg files st p).res with _ | e
      · simp [processEvents, h1, List.countP_append, hh, ih]
      · simp [processEvents, h1, hh]
    | write p =>
      have hh := handleChanged_counts cfg files st p
      rcases h1 : (handleChanged cfg files st p).res with _ | e
      · simp [processEvents, h1, List.countP_append, hh, ih]
      · simp [processEvents, h1, hh]
    | noticeWrite p => exact ih files st
    | noticeRemove p => exact ih files st
    | remove p => exact ih files st
    | rename p q => exact ih files st
    | chmod p => exact ih files st
    | rescan => exact ih files st
    | error => exact ih files st

/-- C7: the partner's construct is called exactly once per successful OS
load — within one call of the private add the two trace counts agree and
there is at most one OS load, and across a whole tick the counts still
agree — and the partner's destruct is called exactly once in the drop glue
iff the partner is present (i.e. iff its construct had succeeded), with the
trace ending in the single OS unload, so the destruct precedes the release
of the OS mapping. -/
theorem claim_C7 :
    (∀ (cfg : Cfg) (files : List FPath) (st : Loader) (n : String) (o l : FPath),
      (addOp cfg files st n o l).events.countP isConstructE =
        (addOp cfg files st n o l).events.countP isOsLoadOkE ∧
      (addOp cfg files st n o l).events.countP isOsLoadOkE ≤ 1) ∧
    (∀ (cfg : Cfg) (evs : List DEvent) (files : List FPath) (st : Loader),
      (update cfg evs files st).events.countP isConstructE =
        (update cfg evs files st).events.countP isOsLoadOkE) ∧
    (∀ (cfg : Cfg) (l : Lib),
      (l.dropGlue cfg).1.countP isDestructE = (if l.partner.isSome then 1 else 0) ∧
      (l.dropGlue cfg).1.countP isOsUnloadE = 1 ∧
      (l.dropGlue cfg).1.getLast? = some (Event.osUnload l.load_path)) := by
  refine ⟨?_, ?_, ?_⟩
  · intro cfg files st n o l
    exact addOp_counts cfg files st n o l
  · intro cfg evs files st
    exact processEvents_counts cfg evs (drainPending cfg st.pending_remove files).2
      { st with pending_remove := (drainPending cfg st.pending_remove files).1 }
  · intro cfg l
    have h := dropGlue_counts cfg l
    exact ⟨h.2.2.1, h.2.2.2.1, h.2.2.2.2⟩

/- ------------------------------------------------------------------ -/
/- C10: every stored entry has a present partner; get never panics.    -/
/- ------------------------------------------------------------------ -/

theorem lookupKV_mem {α β : Type} [DecidableEq α] {k : α} {m : List (α × β)}
    {v : β} (h : lookupKV k m = some v) : (k, v) ∈ m := by
  induction m with
  | nil => simp [lookupKV] at h
  | cons kv rest ih =>
    obtain ⟨k', v'⟩ := kv
    by_cases he : k' = k
    · subst he
      simp [lookupKV] at h
      subst h
      exact List.mem_cons_self _ _
    · simp [lookupKV, he] at h
      exact List.mem_cons_of_mem _ (ih h)

theorem partnerInv_addOp (cfg : Cfg) (files : List FPath) (st : Loader)
    (n : String) (o l : FPath) (h : PartnerInv st) :
    PartnerInv (addOp cfg files st n o l).st := by
  by_cases h1 : copyOk cfg files o l = true
  · by_cases h2 : l ∈ cfg.osLoadRefused
    · simpa [addOp, h1, h2] using h
    · by_cases h3 : l ∈ cfg.constructRefused
      · simpa [addOp, h1, h2, h3] using h
      · intro kv hkv
        simp [addOp, h1, h2, h3, insertKV] at hkv
        rcases hkv with rfl | hkv'
        · rfl
        · exact h kv (mem_of_mem_removeKV hkv')
  · simpa [addOp, h1] using h

theorem partnerInv_removeOp (cfg : Cfg) (files : List FPath) (st : Loader)
    (p : FPath) (h : PartnerInv st) :
    PartnerInv (removeOp cfg files st p).st := by
  unfold removeOp
  rcases h1 : (removeKV p st.origin_path_to_lib_name).1 with _ | n
  · simpa [h1] using h
  · rcases h2 : (removeKV n st.lib_name_to_lib).1 with _ | lib
    · intro kv hkv
      simp [h1, h2] at hkv
      exact h kv (mem_of_mem_removeKV hkv)
    · intro kv hkv
      simp [h1, h2] at hkv
      exact h kv (mem_of_mem_removeKV hkv)

theorem partnerInv_handleChanged (cfg : Cfg) (files : List FPath) (st : Loader)
    (p : FPath) (h : PartnerInv st) :
    PartnerInv (handleChanged cfg files st p).st := by
  have hr := partnerInv_removeOp cfg files st p h
  rcases h1 : (removeOp cfg files st p).res with _ | e
  · rcases h2 : p.getLast? with _ | fn
    · simpa [handleChanged, h1, h2] using hr
    · rcases h3 : extract_lib_name fn with _ | ln
      · simpa [handleChanged, h1, h2, h3] using hr
      · rcases h4 : get_load_path cfg.fuel (removeOp cfg files st p).files
            p.dropLast ln with _ | lp
        · simpa [handleChanged, h1, h2, h3, h4] using hr
        · have ha := partnerInv_addOp cfg (removeOp cfg files st p).files
            (removeOp cfg files st p).st ln p lp hr
          simpa [handleChanged, h1, h2, h3, h4] using ha
  · simpa [handleChanged, h1] using hr

theorem partnerInv_processEvents (cfg : Cfg) :
    ∀ (evs : List DEvent) (files : List FPath) (st : Loader), PartnerInv st →
      PartnerInv (processEvents cfg evs files st).st := by
  intro evs
  induction evs with
  | nil =>
    intro files st h
    by_cases hd : cfg.disconnected = true <;> simpa [processEvents, hd] using h
  | cons ev rest ih =>
    intro files st h
    cases ev with
    | create p =>
      have hh := partnerInv_handleChanged cfg files st p h
      rcases h1 : (handleChanged cfg files st p).res with _ | e
      · simpa [processEvents, h1] using ih _ _ hh
      · simpa [processEvents, h1] using hh
    | write p =>
      have hh := partnerInv_handleChanged cfg files st p h
      rcases h1 : (handleChanged cfg files st p).res with _ | e
      · simpa [processEvents, h1] using ih _ _ hh
      · simpa [processEvents, h1] using hh
    | noticeWrite p => exact ih files st h
    | noticeRemove p => exact ih files st h
    | remove p => exact ih files st h
    | rename p q => exact ih files st h
    | chmod p => exact ih files st h
    | rescan => exact ih files st h
    | error => exact ih files st h

/-- C10: every entry stored in the name map holds a present partner — true
initially and preserved by add_library, remove_library and update — so
Loader::get never hits its unwrap panic: it returns a pair whose partner
component is present exactly when the name is loaded, and nothing
otherwise. -/
theorem claim_C10 :
    (∀ dirs, PartnerInv (newLoader dirs)) ∧
    (∀ (cfg : Cfg) (files : List FPath) (st : Loader) (n : String),
      PartnerInv st → PartnerInv (add_library cfg files st n).st) ∧
    (∀ (cfg : Cfg) (files : List FPath) (st : Loader) (n : String),
      PartnerInv st → PartnerInv (remove_library cfg files st n).st) ∧
    (∀ (cfg : Cfg) (evs : List DEvent) (files : List FPath) (st : Loader),
      PartnerInv st → PartnerInv (update cfg evs files st).st) ∧
    (∀ (st : Loader) (n : String), PartnerInv st →
      ((getOp st n).isSome ↔ (lookupKV n st.lib_name_to_lib).isSome) ∧
      (∀ r ∈ getOp st n, (Prod.snd r).isSome = true)) := by
  refine ⟨?_, ?_, ?_, ?_, ?_⟩
  · intro dirs kv hkv
    simp [newLoader] at hkv
  · intro cfg files st n h
    by_cases hl : (lookupKV n st.lib_name_to_lib).isSome = true
    · simpa [add_library, hl] using h
    · rcases hs : search cfg files st.search_dirs n with _ | ⟨o, olp⟩
      · simpa [add_library, hl, hs] using h
      · rcases olp with _ | lp
        · simpa [add_library, hl, hs] using h
        · have ha := partnerInv_addOp cfg files st n o lp h
          rcases h1 : (addOp cfg files st n o lp).res with _ | e
          · by_cases hw : o ∈ cfg.watchRefused <;>
              simpa [add_library, hl, hs, h1, hw] using ha
          · simpa [add_library, hl, hs, h1] using ha
  · intro cfg files st n h
    rcases hl : lookupKV n st.lib_name_to_lib with _ | lib
    · simpa [remove_library, hl] using h
    · by_cases hw : lib.origin_path ∈ cfg.unwatchRefused
      · simpa [remove_library, hl, hw] using h
      · have hr := partnerInv_removeOp cfg files st lib.origin_path h
        simpa [remove_library, hl, hw] using hr
  · intro cfg evs files st h
    exact partnerInv_processEvents cfg evs
      (drainPending cfg st.pending_remove files).2
      { st with pending_remove := (drainPending cfg st.pending_remove files).1 } h
  · intro st n h
    constructor
    · simp [getOp]
    · intro r hr
      simp [getOp, Option.mem_def] at hr
      obtain ⟨l, hl, hrl⟩ := hr
      have hmem := h (n, l) (lookupKV_mem hl)
      subst hrl
      simpa using hmem

/-- C10 (witness): the get-safety conjunct at a concrete loaded state. -/
theorem claim_C10_witness :
    ((getOp stC10 "foo").isSome ↔ (lookupKV "foo" stC10.lib_name_to_lib).isSome) ∧
    (∀ r ∈ getOp stC10 "foo", (Prod.snd r).isSome = true) :=
  claim_C10.2.2.2.2 stC10 "foo" (by decide)

end LiveLib
